import Mathlib

/-!
Verification of the quant-helper backtesting core.

Shallow embedding of `src/quant_helper/costs.py`, `src/quant_helper/performance.py`
and `src/quant_helper/backtest.py` over exact rationals.

Modelling conventions:
* A pandas `Series` sharing the common (strictly increasing) timestamp index is a
  `List ℚ`, indexed positionally; `entry xs t` reads entry `t` (0 outside bounds,
  which is only ever used under explicit bounds hypotheses).
* A float that pandas would render as `NaN` (mean / std / max / min of an empty
  window, std with `ddof=1` of a single point) is `none : Option ℚ`; arithmetic
  on `none` propagates `none`, mirroring NaN propagation.
* `np.sqrt` is an abstract parameter `sqrtQ : ℚ → ℚ`; every claim proved about a
  metric that mentions it holds for an arbitrary `sqrtQ`.
* Python exceptions raised by the backtester become the `BacktestError` sum type;
  `run_strategy` / `get_results` return `Except BacktestError _`.
-/

/-- Positional read of a series entry, defaulting to 0 out of bounds. -/
def entry (xs : List ℚ) (t : ℕ) : ℚ := xs.getD t 0

/-- Product of `f 0 * f 1 * ⋯ * f (n-1)`; used to express pandas `cumprod`. -/
def prodF (f : ℕ → ℚ) (n : ℕ) : ℚ := ((List.range n).map f).prod

/-- `costs.py` — `TransactionCostModel` (dataclass with commission and slippage
rates; defaults 0.0005 each are irrelevant to the claims and not modelled). -/
structure TransactionCostModel where
  commission : ℚ
  slippage : ℚ
deriving DecidableEq

namespace TransactionCostModel

/-- `costs.py:20-23` — `rate`: combined proportional cost rate,
`max(self.commission + self.slippage, 0.0)`. -/
def rate (m : TransactionCostModel) : ℚ := max (m.commission + m.slippage) 0

/-- `costs.py:25-37` — `cost_series`: `trades = positions.diff().fillna(positions)`
(so the period-0 trade is the initial position itself, a trade from flat), then
`trades.abs() * prices * self.rate`. -/
def cost_series (m : TransactionCostModel) (positions prices : List ℚ) : List ℚ :=
  (List.range positions.length).map (fun t =>
    |if t = 0 then entry positions 0 else entry positions t - entry positions (t - 1)|
      * entry prices t * m.rate)

end TransactionCostModel

/-- `backtest.py:134` — `prices.pct_change().fillna(0.0)`: entry 0 is 0 (filled
NaN), entry `t ≥ 1` is `price(t)/price(t-1) - 1`. -/
def pctChange (prices : List ℚ) : List ℚ :=
  (List.range prices.length).map (fun t =>
    if t = 0 then 0 else entry prices t / entry prices (t - 1) - 1)

/-- `backtest.py:138` — `positions.shift(1).fillna(0.0)`: entry 0 is 0, entry
`t ≥ 1` is `position(t-1)`. The output is indexed by the price index. -/
def shiftedPositions (prices positions : List ℚ) : List ℚ :=
  (List.range prices.length).map (fun t =>
    if t = 0 then 0 else entry positions (t - 1))

/-- `backtest.py:139` — `strategy_returns = shifted_positions * price_returns`
(before any cost deduction). -/
def strategyReturns (prices positions : List ℚ) : List ℚ :=
  (List.range prices.length).map (fun t =>
    entry (shiftedPositions prices positions) t * entry (pctChange prices) t)

/-- `backtest.py:141-144` — the per-period returns actually compounded: the raw
strategy returns, minus `costs / initial_capital` when a cost model is set. -/
def adjustedReturns (cm : Option TransactionCostModel) (initial_capital : ℚ)
    (prices positions : List ℚ) : List ℚ :=
  match cm with
  | none => strategyReturns prices positions
  | some m =>
      (List.range prices.length).map (fun t =>
        entry (strategyReturns prices positions) t
          - entry (m.cost_series positions prices) t / initial_capital)

/-- `backtest.py:147` — `initial_capital * (1 + strategy_returns).cumprod()`:
entry `t` is `initial_capital * Π_{k ≤ t} (1 + return(k))`. -/
def portfolioValues (initial_capital : ℚ) (rs : List ℚ) : List ℚ :=
  (List.range rs.length).map (fun t =>
    initial_capital * prodF (fun k => 1 + entry rs k) (t + 1))

/-- Running sum, pandas `cumsum`. -/
def cumsum (xs : List ℚ) : List ℚ :=
  (List.range xs.length).map (fun t => (xs.take (t + 1)).sum)

/-- `backtest.py:118-149` — `Backtester._calculate_portfolio_values`: returns the
portfolio value series and the cumulative cost series (costs are a zero series
when no cost model is supplied). -/
def calculatePortfolioValues (cm : Option TransactionCostModel)
    (initial_capital : ℚ) (prices positions : List ℚ) : List ℚ × List ℚ :=
  let costs := match cm with
    | none => List.replicate prices.length (0 : ℚ)
    | some m => m.cost_series positions prices
  (portfolioValues initial_capital (adjustedReturns cm initial_capital prices positions),
   cumsum costs)

/-- `backtest.py:151-165` — `Backtester._calculate_buy_and_hold`:
`initial_capital * prices / prices.iloc[0]`. -/
def calculateBuyAndHold (initial_capital : ℚ) (prices : List ℚ) : List ℚ :=
  prices.map (fun p => initial_capital * (p / entry prices 0))

/-- Mean of a series; `none` models pandas NaN on an empty series. -/
def mean? (xs : List ℚ) : Option ℚ :=
  if xs = [] then none else some (xs.sum / xs.length)

/-- Sample standard deviation (`ddof = 1`, pandas `.std()`), `sqrtQ` standing for
the square root; `none` models the NaN produced when fewer than two samples
exist (denominator `n - 1 = 0`). -/
def sampleStd? (sqrtQ : ℚ → ℚ) (xs : List ℚ) : Option ℚ :=
  if xs.length < 2 then none
  else some (sqrtQ (((xs.map (fun x => (x - xs.sum / xs.length) ^ 2)).sum)
    / ((xs.length : ℚ) - 1)))

/-- `performance.py:20-34` — `calculate_daily_returns`:
`prices.pct_change().dropna()`, one entry shorter than its source. -/
def calculate_daily_returns (prices : List ℚ) : List ℚ :=
  (List.range (prices.length - 1)).map (fun t =>
    entry prices (t + 1) / entry prices t - 1)

/-- `performance.py:52-77` — `calculate_sharpe_ratio`: returns 0.0 when the
series is empty or its std equals 0; otherwise annualized mean excess return
over annualized std. A `none` result models the NaN reached when the std is
itself NaN (single sample). -/
def calculate_sharpe_ratio (sqrtQ : ℚ → ℚ) (returns : List ℚ)
    (risk_free_rate : ℚ) (periods_per_year : ℕ) : Option ℚ :=
  if returns = [] ∨ sampleStd? sqrtQ returns = some 0 then some 0
  else
    match mean? returns, sampleStd? sqrtQ returns with
    | some m, some s =>
        some ((m * periods_per_year - risk_free_rate) / (s * sqrtQ periods_per_year))
    | _, _ => none

/-- Running maximum at index `t`, pandas `prices.expanding().max()`. -/
def runningMaxAt (v : List ℚ) (t : ℕ) : ℚ := ((v.take (t + 1)).max?).getD 0

/-- The per-period drawdown series `(prices - running_max) / running_max`. -/
def drawdowns (v : List ℚ) : List ℚ :=
  (List.range v.length).map (fun t =>
    (entry v t - runningMaxAt v t) / runningMaxAt v t)

/-- `performance.py:79-99` — `calculate_max_drawdown`: 0.0 on an empty series,
otherwise the minimum of the drawdown series. -/
def calculate_max_drawdown (v : List ℚ) : ℚ :=
  if v = [] then 0 else ((drawdowns v).min?).getD 0

/-- `performance.py:101-115` — `calculate_volatility`: 0.0 on an empty series,
otherwise `returns.std() * sqrt(periods_per_year)`; `none` models the NaN
reached when the std is NaN (single sample). -/
def calculate_volatility (sqrtQ : ℚ → ℚ) (returns : List ℚ)
    (periods_per_year : ℕ) : Option ℚ :=
  if returns = [] then some 0
  else (sampleStd? sqrtQ returns).map (fun s => s * sqrtQ periods_per_year)

/-- `performance.py:117-130` — `calculate_total_return`: 0.0 for fewer than two
points, else `(last - first) / first`. -/
def calculate_total_return (prices : List ℚ) : ℚ :=
  if prices = [] ∨ prices.length < 2 then 0
  else (entry prices (prices.length - 1) - entry prices 0) / entry prices 0

/-- `performance.py:132-148` — `calculate_win_rate`: 0.0 on an empty series,
else the fraction of strictly positive returns. -/
def calculate_win_rate (returns : List ℚ) : ℚ :=
  if returns = [] then 0
  else (returns.countP (fun r => decide (0 < r)) : ℚ) / returns.length

/-- The mapping produced by `generate_performance_summary`. -/
structure PerformanceSummary where
  total_return : ℚ
  sharpe_ratio : Option ℚ
  max_drawdown : ℚ
  volatility : Option ℚ
  win_rate : ℚ
  avg_daily_return : Option ℚ
  best_day : Option ℚ
  worst_day : Option ℚ
  total_trades : ℕ
deriving DecidableEq

/-- `performance.py:150-182` — `generate_performance_summary` with a
pre-computed returns series (as the backtester always supplies one). -/
def generate_performance_summary (sqrtQ : ℚ → ℚ) (prices returns : List ℚ)
    (risk_free_rate : ℚ) : PerformanceSummary :=
  { total_return := calculate_total_return prices
    sharpe_ratio := calculate_sharpe_ratio sqrtQ returns risk_free_rate 365
    max_drawdown := calculate_max_drawdown prices
    volatility := calculate_volatility sqrtQ returns 365
    win_rate := calculate_win_rate returns
    avg_daily_return := mean? returns
    best_day := returns.max?
    worst_day := returns.min?
    total_trades := returns.length }

/-- The exceptions the backtester raises: `emptyData` is the `ValueError` of
`backtest.py:74` (empty price history), `noResult` the `RuntimeError` of
`backtest.py:178` (no backtest run yet). Distinct constructors model distinct
exception types the caller can branch on. -/
inductive BacktestError where
  | emptyData (msg : String)
  | noResult (msg : String)
deriving DecidableEq

/-- `backtest.py:95-114` — the result dictionary assembled by `run_strategy`
(the fetch-related identifiers and dates are external inputs and omitted). -/
structure BacktestResult where
  initial_capital : ℚ
  final_value : ℚ
  portfolio_values : List ℚ
  benchmark_values : List ℚ
  positions : List ℚ
  prices : List ℚ
  transaction_costs : List ℚ
  strategy_metrics : PerformanceSummary
  benchmark_metrics : PerformanceSummary
deriving DecidableEq

/-- `backtest.py:23-42` — the `Backtester` state: initial capital, optional cost
model, and the `_results` slot (`None` until the first successful run). -/
structure Backtester where
  initial_capital : ℚ
  cost_model : Option TransactionCostModel
  results : Option BacktestResult

/-- `backtest.py:80` — `positions.reindex(prices_df.index, method='ffill').fillna(0.0)`
on the positional index: entries the strategy supplied are kept, entries past
its last output hold the last value (forward fill), and an entirely empty
output is filled with 0. -/
def alignPositions (raw : List ℚ) (n : ℕ) : List ℚ :=
  (List.range n).map (fun t =>
    if t < raw.length then entry raw t
    else if raw = [] then 0 else entry raw (raw.length - 1))

/-- `backtest.py:44-116` — `run_strategy`, with the already-fetched close-price
series as input (fetching is the external provider's job): raises on an empty
history, otherwise invokes the strategy once, aligns its positions, computes
portfolio / benchmark values and both summaries, and stores the result. -/
def run_strategy (sqrtQ : ℚ → ℚ) (b : Backtester)
    (strategy : List ℚ → List ℚ) (prices : List ℚ) :
    Except BacktestError (BacktestResult × Backtester) :=
  if prices = [] then
    .error (.emptyData "No price data available in the specified date range")
  else
    let positions := alignPositions (strategy prices) prices.length
    let out := calculatePortfolioValues b.cost_model b.initial_capital prices positions
    let benchmark := calculateBuyAndHold b.initial_capital prices
    let strategyRet := calculate_daily_returns out.1
    let benchmarkRet := calculate_daily_returns benchmark
    let r : BacktestResult :=
      { initial_capital := b.initial_capital
        final_value := entry out.1 (out.1.length - 1)
        portfolio_values := out.1
        benchmark_values := benchmark
        positions := positions
        prices := prices
        transaction_costs := out.2
        strategy_metrics := generate_performance_summary sqrtQ out.1 strategyRet 0
        benchmark_metrics := generate_performance_summary sqrtQ benchmark benchmarkRet 0 }
    .ok (r, { b with results := some r })

/-- `backtest.py:167-180` — `get_results`: raises `noResult` when the result
slot is empty, otherwise returns the stored result. -/
def get_results (b : Backtester) : Except BacktestError BacktestResult :=
  match b.results with
  | none => .error (.noResult "No backtest has been run yet. Call run_strategy() first.")
  | some r => .ok r

/-! ## Basic lemmas about the series combinators -/

instance : Std.Antisymm ((· ≤ ·) : ℚ → ℚ → Prop) := ⟨fun h h' => le_antisymm h h'⟩

lemma entry_rangeMap (f : ℕ → ℚ) {n t : ℕ} (h : t < n) :
    entry ((List.range n).map f) t = f t := by
  simp [entry, List.getD_eq_getElem?_getD, List.getElem?_map, List.getElem?_range, h]

lemma entry_oob (xs : List ℚ) {t : ℕ} (h : xs.length ≤ t) : entry xs t = 0 := by
  simp [entry, List.getD_eq_getElem?_getD, List.getElem?_eq_none h]

lemma entry_replicate (n : ℕ) (c : ℚ) {t : ℕ} (h : t < n) :
    entry (List.replicate n c) t = c := by
  simp [entry, List.getD_eq_getElem?_getD, List.getElem?_replicate, h]

lemma entry_eq_getElem (xs : List ℚ) {t : ℕ} (h : t < xs.length) :
    entry xs t = xs[t] := by
  simp [entry, List.getD_eq_getElem?_getD, List.getElem?_eq_getElem h]

lemma entry_mem (xs : List ℚ) {t : ℕ} (h : t < xs.length) : entry xs t ∈ xs := by
  rw [entry_eq_getElem xs h]; exact List.getElem_mem h

lemma prodF_zero (f : ℕ → ℚ) : prodF f 0 = 1 := rfl

lemma prodF_succ (f : ℕ → ℚ) (n : ℕ) : prodF f (n + 1) = prodF f n * f n := by
  simp [prodF, List.range_succ]

lemma strategyReturns_length (prices positions : List ℚ) :
    (strategyReturns prices positions).length = prices.length := by
  simp [strategyReturns]

lemma adjustedReturns_length (cm : Option TransactionCostModel) (K : ℚ)
    (prices positions : List ℚ) :
    (adjustedReturns cm K prices positions).length = prices.length := by
  cases cm <;> simp [adjustedReturns, strategyReturns_length]

lemma portfolioValues_length (K : ℚ) (rs : List ℚ) :
    (portfolioValues K rs).length = rs.length := by
  simp [portfolioValues]

lemma entry_portfolioValues (K : ℚ) (rs : List ℚ) {t : ℕ} (h : t < rs.length) :
    entry (portfolioValues K rs) t = K * prodF (fun k => 1 + entry rs k) (t + 1) := by
  unfold portfolioValues
  exact entry_rangeMap _ h

lemma entry_strategyReturns_zero (prices positions : List ℚ) (h : prices ≠ []) :
    entry (strategyReturns prices positions) 0 = 0 := by
  have hl : 0 < prices.length := List.length_pos.mpr h
  unfold strategyReturns shiftedPositions
  rw [entry_rangeMap _ hl, entry_rangeMap _ hl]
  simp

lemma entry_strategyReturns_pos (prices positions : List ℚ) {t : ℕ}
    (ht : 0 < t) (h : t < prices.length) :
    entry (strategyReturns prices positions) t
      = entry positions (t - 1) * (entry prices t / entry prices (t - 1) - 1) := by
  unfold strategyReturns shiftedPositions pctChange
  rw [entry_rangeMap _ h, entry_rangeMap _ h, entry_rangeMap _ h,
    if_neg (Nat.pos_iff_ne_zero.mp ht), if_neg (Nat.pos_iff_ne_zero.mp ht)]

/-! ## Claims -/

/-- C1: No lookahead — the strategy return realized at timestamp `t` equals
`position(t-1) * (price(t)/price(t-1) - 1)`, a function of only `position(t-1)`,
`price(t-1)` and `price(t)`; the first timestamp realizes zero return (the
shifted position there is filled with zero exposure). -/
theorem no_lookahead (prices positions : List ℚ) :
    (prices ≠ [] → entry (strategyReturns prices positions) 0 = 0) ∧
    ∀ t, 0 < t → t < prices.length →
      entry (strategyReturns prices positions) t
        = entry positions (t - 1) * (entry prices t / entry prices (t - 1) - 1) :=
  ⟨fun h => entry_strategyReturns_zero prices positions h,
   fun _ ht h => entry_strategyReturns_pos prices positions ht h⟩

/-- Witness for C1 at prices `[100, 110]`, positions `[1, 2]`: period 0 realizes
zero, period 1 realizes `1 * (110/100 - 1) = 1/10` — the later position `2`
(decided at `t = 1`) never enters. -/
theorem no_lookahead_witness :
    entry (strategyReturns [100, 110] [1, 2]) 0 = 0 ∧
    entry (strategyReturns [100, 110] [1, 2]) 1 = 1 / 10 := by
  have h := no_lookahead [100, 110] [1, 2]
  refine ⟨h.1 (by simp), ?_⟩
  rw [h.2 1 (by norm_num) (by norm_num)]
  norm_num [entry, List.getD]

/-- C5: The concrete 5-period scenario — prices `[100, 110, 99, 99, 108]`,
constant position 1.0, initial capital 1000, no cost model — produces portfolio
values `[1000, 1100, 990, 990, 1080]`, equal to buy-and-hold at every period,
with total return exactly `0.08 = 2/25`. -/
theorem scenario_constant_long :
    (calculatePortfolioValues none 1000 [100, 110, 99, 99, 108] [1, 1, 1, 1, 1]).1
        = [1000, 1100, 990, 990, 1080] ∧
    (calculatePortfolioValues none 1000 [100, 110, 99, 99, 108] [1, 1, 1, 1, 1]).1
        = calculateBuyAndHold 1000 [100, 110, 99, 99, 108] ∧
    calculate_total_return
        (calculatePortfolioValues none 1000 [100, 110, 99, 99, 108] [1, 1, 1, 1, 1]).1
      = 8 / 100 := by
  have hpv : (calculatePortfolioValues none 1000
      [100, 110, 99, 99, 108] [1, 1, 1, 1, 1]).1 = [1000, 1100, 990, 990, 1080] := by
    norm_num [calculatePortfolioValues, portfolioValues, adjustedReturns, strategyReturns,
      shiftedPositions, pctChange, prodF, entry, List.range_succ, List.getD]
  have hbh : calculateBuyAndHold 1000 [100, 110, 99, 99, 108]
      = [1000, 1100, 990, 990, 1080] := by
    norm_num [calculateBuyAndHold, entry, List.getD]
  refine ⟨hpv, hbh ▸ hpv, ?_⟩
  rw [hpv, calculate_total_return, if_neg (by simp)]
  norm_num [entry, List.getD]

/-- C6: `cost_series` charges `|position(0)| * price(0) * rate` at period 0 (a
trade from flat), `|position(t) - position(t-1)| * price(t) * rate` at every
later period, with `rate = max(commission + slippage, 0)`; a constant position
series therefore costs zero at every period after the first. -/
theorem cost_series_spec (m : TransactionCostModel) (positions prices : List ℚ) :
    m.rate = max (m.commission + m.slippage) 0 ∧
    (positions ≠ [] →
      entry (m.cost_series positions prices) 0
        = |entry positions 0| * entry prices 0 * m.rate) ∧
    (∀ t, 0 < t → t < positions.length →
      entry (m.cost_series positions prices) t
        = |entry positions t - entry positions (t - 1)| * entry prices t * m.rate) ∧
    (∀ n : ℕ, ∀ c : ℚ, ∀ t, 0 < t → t < n →
      entry (m.cost_series (List.replicate n c) prices) t = 0) := by
  refine ⟨rfl, ?_, ?_, ?_⟩
  · intro h
    have hl : 0 < positions.length := List.length_pos.mpr h
    unfold TransactionCostModel.cost_series
    rw [entry_rangeMap _ hl]
    simp
  · intro t ht h
    unfold TransactionCostModel.cost_series
    rw [entry_rangeMap _ h, if_neg (Nat.pos_iff_ne_zero.mp ht)]
  · intro n c t ht h
    unfold TransactionCostModel.cost_series
    rw [entry_rangeMap _ (by simpa using h), if_neg (Nat.pos_iff_ne_zero.mp ht),
      entry_replicate n c h, entry_replicate n c (lt_of_le_of_lt (Nat.sub_le t 1) h)]
    simp

/-- Witness for C6 with commission 1/100, slippage 0, positions `[0, 1, 1]`,
prices `[100, 110, 99]`: cost 0 at period 0 (flat start), `1 * 110 * 1/100`
at the flip, and 0 on the constant tail. -/
theorem cost_series_spec_witness :
    entry (TransactionCostModel.cost_series ⟨1/100, 0⟩ [0, 1, 1] [100, 110, 99]) 0 = 0 ∧
    entry (TransactionCostModel.cost_series ⟨1/100, 0⟩ [0, 1, 1] [100, 110, 99]) 1 = 11/10 ∧
    entry (TransactionCostModel.cost_series ⟨1/100, 0⟩ [1, 1] [100, 110]) 1 = 0 := by
  have h := cost_series_spec ⟨1/100, 0⟩ [0, 1, 1] [100, 110, 99]
  refine ⟨?_, ?_, ?_⟩
  · rw [h.2.1 (by simp)]
    norm_num [entry, List.getD, TransactionCostModel.rate]
  · rw [h.2.2.1 1 (by norm_num) (by norm_num)]
    norm_num [entry, List.getD, TransactionCostModel.rate]
  · have h2 := (cost_series_spec ⟨1/100, 0⟩ (List.replicate 2 1) [100, 110]).2.2.2 2 1 1
      (by norm_num) (by norm_num)
    simpa using h2

/-- C10: A single-element return series escapes the zero-std guard — the sample
standard deviation with `ddof = 1` is undefined (NaN, modelled `none`) rather
than zero, so the guard of `calculate_sharpe_ratio` does not fire, neither
function returns the 0.0 sentinel, and the aggregation over the undefined
standard deviation is reached (producing NaN, modelled `none`). -/
theorem single_sample_escapes_guard (sqrtQ : ℚ → ℚ) (rf : ℚ) (py : ℕ) (r : ℚ) :
    ¬([r] = [] ∨ sampleStd? sqrtQ [r] = some 0) ∧
    calculate_sharpe_ratio sqrtQ [r] rf py = none ∧
    calculate_volatility sqrtQ [r] py = none := by
  have hstd : sampleStd? sqrtQ [r] = none := by
    unfold sampleStd?
    rw [if_pos (by simp)]
  have hguard : ¬([r] = [] ∨ sampleStd? sqrtQ [r] = some 0) := by
    rw [hstd]; simp
  refine ⟨hguard, ?_, ?_⟩
  · unfold calculate_sharpe_ratio
    rw [if_neg hguard, hstd]
    cases mean? [r] <;> rfl
  · unfold calculate_volatility
    rw [if_neg (by simp), hstd]
    rfl

/-- C8: `run_strategy` fails with the distinct `emptyData` error condition (the
dedicated exception of `backtest.py:74`, distinguishable from the no-result
error) exactly when the supplied price history has no rows; on a non-empty
history it completes with a backtest result. -/
theorem empty_history_error (sqrtQ : ℚ → ℚ) (b : Backtester)
    (strategy : List ℚ → List ℚ) (prices : List ℚ) :
    ((∃ e, run_strategy sqrtQ b strategy prices = .error e) ↔ prices = []) ∧
    (prices = [] → run_strategy sqrtQ b strategy prices
        = .error (.emptyData "No price data available in the specified date range")) ∧
    (prices ≠ [] → ∃ r b', run_strategy sqrtQ b strategy prices = .ok (r, b')) ∧
    (∀ m m', BacktestError.emptyData m ≠ BacktestError.noResult m') := by
  by_cases h : prices = []
  · have hrun : run_strategy sqrtQ b strategy prices
        = .error (.emptyData "No price data available in the specified date range") := by
      unfold run_strategy
      rw [if_pos h]
    exact ⟨⟨fun _ => h, fun _ => ⟨_, hrun⟩⟩, fun _ => hrun,
      fun hne => absurd h hne, fun _ _ => by simp⟩
  · obtain ⟨r, b', hrb⟩ : ∃ r b', run_strategy sqrtQ b strategy prices = .ok (r, b') := by
      unfold run_strategy
      rw [if_neg h]
      exact ⟨_, _, rfl⟩
    refine ⟨⟨?_, fun he => absurd he h⟩, fun he => absurd he h,
      fun _ => ⟨r, b', hrb⟩, fun _ _ => by simp⟩
    rintro ⟨e, he⟩
    rw [hrb] at he
    cases he

/-- Witness for C8: an empty history yields the `emptyData` error; the
one-row history `[100]` yields a successful result. -/
theorem empty_history_error_witness :
    run_strategy (fun q => q) ⟨1000, none, none⟩ (fun _ => [1]) []
      = .error (.emptyData "No price data available in the specified date range") ∧
    ∃ r b', run_strategy (fun q => q) ⟨1000, none, none⟩ (fun _ => [1]) [100]
      = .ok (r, b') := by
  have h1 := empty_history_error (fun q => q) ⟨1000, none, none⟩ (fun _ => [1]) []
  have h2 := empty_history_error (fun q => q) ⟨1000, none, none⟩ (fun _ => [1]) [100]
  exact ⟨h1.2.1 rfl, h2.2.2.1 (by simp)⟩

/-- C9: `get_results` fails with the distinct `noResult` error condition exactly
when the result slot is empty (no run has completed on this instance); a
successful run stores its freshly assembled result in the slot — overwriting
whatever was there — and `get_results` then returns exactly that result. -/
theorem result_slot_spec :
    (∀ b : Backtester, b.results = none →
      get_results b
        = .error (.noResult "No backtest has been run yet. Call run_strategy() first.")) ∧
    (∀ b : Backtester, (∃ e, get_results b = .error e) ↔ b.results = none) ∧
    (∀ (r : BacktestResult) (b : Backtester), b.results = some r → get_results b = .ok r) ∧
    (∀ (sqrtQ : ℚ → ℚ) (b : Backtester) (strategy : List ℚ → List ℚ)
        (prices : List ℚ) (r : BacktestResult) (b' : Backtester),
      run_strategy sqrtQ b strategy prices = .ok (r, b') →
      b'.results = some r ∧ get_results b' = .ok r ∧
      b'.initial_capital = b.initial_capital ∧ b'.cost_model = b.cost_model) := by
  have hnone : ∀ b : Backtester, b.results = none →
      get_results b
        = .error (.noResult "No backtest has been run yet. Call run_strategy() first.") := by
    intro b hb
    unfold get_results
    rw [hb]
  have hsome : ∀ (r : BacktestResult) (b : Backtester),
      b.results = some r → get_results b = .ok r := by
    intro r b hb
    unfold get_results
    rw [hb]
  refine ⟨hnone, ?_, hsome, ?_⟩
  · intro b
    constructor
    · rintro ⟨e, he⟩
      cases hb : b.results with
      | none => rfl
      | some r => rw [hsome r b hb] at he; cases he
    · intro hb
      exact ⟨_, hnone b hb⟩
  · intro sqrtQ b strategy prices r b' hrun
    by_cases h : prices = []
    · rw [run_strategy, if_pos h] at hrun
      cases hrun
    · rw [run_strategy, if_neg h] at hrun
      simp only [Except.ok.injEq, Prod.mk.injEq] at hrun
      obtain ⟨hr, hb'⟩ := hrun
      subst hr
      subst hb'
      exact ⟨rfl, hsome _ _ rfl, rfl, rfl⟩

/-- Witness for C9: on a fresh `Backtester` the slot is empty and `get_results`
errors; after running on `[100]` the stored result is returned. -/
theorem result_slot_spec_witness :
    get_results ⟨1000, none, none⟩
      = .error (.noResult "No backtest has been run yet. Call run_strategy() first.") ∧
    ∀ r b', run_strategy (fun q => q) ⟨1000, none, none⟩ (fun _ => [1]) [100] = .ok (r, b') →
      get_results b' = .ok r := by
  refine ⟨result_slot_spec.1 ⟨1000, none, none⟩ rfl, fun r b' h => ?_⟩
  exact (result_slot_spec.2.2.2 (fun q => q) ⟨1000, none, none⟩ (fun _ => [1]) [100] r b' h).2.1

lemma calculatePortfolioValues_fst (cm : Option TransactionCostModel) (K : ℚ)
    (prices positions : List ℚ) :
    (calculatePortfolioValues cm K prices positions).1
      = portfolioValues K (adjustedReturns cm K prices positions) := rfl

lemma entry_nonneg (xs : List ℚ) (h : ∀ x ∈ xs, 0 ≤ x) (t : ℕ) : 0 ≤ entry xs t := by
  by_cases ht : t < xs.length
  · exact h _ (entry_mem xs ht)
  · rw [entry_oob xs (le_of_not_lt ht)]

lemma cost_series_length (m : TransactionCostModel) (positions prices : List ℚ) :
    (m.cost_series positions prices).length = positions.length := by
  simp [TransactionCostModel.cost_series]

lemma cost_series_nonneg (m : TransactionCostModel) (positions prices : List ℚ)
    (hp : ∀ p ∈ prices, 0 ≤ p) (t : ℕ) :
    0 ≤ entry (m.cost_series positions prices) t := by
  by_cases ht : t < positions.length
  · unfold TransactionCostModel.cost_series
    rw [entry_rangeMap _ ht]
    exact mul_nonneg (mul_nonneg (abs_nonneg _) (entry_nonneg prices hp t))
      (le_max_right _ _)
  · rw [entry_oob _ (by rw [cost_series_length]; exact le_of_not_lt ht)]

lemma prodF_le_prodF (f g : ℕ → ℚ) (n : ℕ)
    (h : ∀ k, k < n → 0 ≤ g k ∧ g k ≤ f k) :
    0 ≤ prodF g n ∧ prodF g n ≤ prodF f n := by
  induction n with
  | zero => simp [prodF_zero]
  | succ n ih =>
      have hn := h n (Nat.lt_succ_self n)
      have ih' := ih (fun k hk => h k (hk.trans (Nat.lt_succ_self n)))
      rw [prodF_succ, prodF_succ]
      exact ⟨mul_nonneg ih'.1 hn.1,
        mul_le_mul ih'.2 hn.2 hn.1 (ih'.1.trans ih'.2)⟩

lemma run_strategy_ok_fields (sqrtQ : ℚ → ℚ) (b : Backtester)
    (strategy : List ℚ → List ℚ) (prices : List ℚ) (h : prices ≠ [])
    (r : BacktestResult) (b' : Backtester)
    (hrun : run_strategy sqrtQ b strategy prices = .ok (r, b')) :
    r.portfolio_values = (calculatePortfolioValues b.cost_model b.initial_capital prices
        (alignPositions (strategy prices) prices.length)).1 ∧
    r.benchmark_values = calculateBuyAndHold b.initial_capital prices ∧
    r.transaction_costs = (calculatePortfolioValues b.cost_model b.initial_capital prices
        (alignPositions (strategy prices) prices.length)).2 ∧
    r.initial_capital = b.initial_capital := by
  rw [run_strategy, if_neg h] at hrun
  simp only [Except.ok.injEq, Prod.mk.injEq] at hrun
  obtain ⟨hr, _⟩ := hrun
  subst hr
  exact ⟨rfl, rfl, rfl, rfl⟩

/-- C2 counterexample: a run on the one-row history `[100]` with cost model
`commission = 1/100, slippage = 0` and initial position 1 charges the entry
trade at period 0, so the first portfolio value is `999`, not the initial
capital `1000`. -/
theorem degenerate_first_period_cex :
    (run_strategy (fun q => q) ⟨1000, some ⟨1/100, 0⟩, none⟩ (fun _ => [1]) [100]).toOption.map
        (fun p => entry p.1.portfolio_values 0) = some 999 ∧ (999 : ℚ) ≠ 1000 := by
  constructor
  · rw [run_strategy, if_neg (by simp)]
    norm_num [Except.toOption, alignPositions, calculatePortfolioValues, portfolioValues,
      adjustedReturns, strategyReturns, shiftedPositions, pctChange, prodF, entry,
      List.range_succ, List.getD, TransactionCostModel.cost_series, TransactionCostModel.rate]
  · norm_num

/-- C2 (amended): for every run on a non-empty price history, the portfolio
value at the first timestamp equals `initial_capital` when no cost model is
supplied; with a cost model it equals
`initial_capital * (1 - cost(0)/initial_capital)` — so it equals
`initial_capital` exactly when the period-0 entry cost is zero (e.g. an
initial flat position). -/
theorem degenerate_first_period (sqrtQ : ℚ → ℚ) (b : Backtester)
    (strategy : List ℚ → List ℚ) (prices : List ℚ) (h : prices ≠ [])
    (r : BacktestResult) (b' : Backtester)
    (hrun : run_strategy sqrtQ b strategy prices = .ok (r, b')) :
    (b.cost_model = none → entry r.portfolio_values 0 = b.initial_capital) ∧
    (∀ m, b.cost_model = some m →
      entry r.portfolio_values 0
        = b.initial_capital * (1 - entry (m.cost_series
            (alignPositions (strategy prices) prices.length) prices) 0
              / b.initial_capital)) := by
  have h0 : 0 < prices.length := List.length_pos.mpr h
  have hpv := (run_strategy_ok_fields sqrtQ b strategy prices h r b' hrun).1
  rw [hpv, calculatePortfolioValues_fst]
  have hl : 0 < (adjustedReturns b.cost_model b.initial_capital prices
      (alignPositions (strategy prices) prices.length)).length := by
    rw [adjustedReturns_length]; exact h0
  rw [entry_portfolioValues _ _ hl, prodF_succ, prodF_zero]
  constructor
  · intro hcm
    rw [hcm]
    show b.initial_capital * (1 * (1 + entry (strategyReturns prices
      (alignPositions (strategy prices) prices.length)) 0)) = b.initial_capital
    rw [entry_strategyReturns_zero _ _ h]
    ring
  · intro m hcm
    rw [hcm]
    show b.initial_capital * (1 * (1 + entry ((List.range prices.length).map (fun t =>
        entry (strategyReturns prices (alignPositions (strategy prices) prices.length)) t
          - entry (m.cost_series (alignPositions (strategy prices) prices.length) prices) t
            / b.initial_capital)) 0)) = _
    rw [entry_rangeMap _ h0, entry_strategyReturns_zero _ _ h]
    ring

/-- Witness for C2 (amended): a cost-free run on `[100, 110]` with constant
position 1 starts at exactly the initial capital 1000. -/
theorem degenerate_first_period_witness :
    (run_strategy (fun q => q) ⟨1000, none, none⟩ (fun _ => [1, 1]) [100, 110]).toOption.map
      (fun p => entry p.1.portfolio_values 0) = some 1000 := by
  obtain ⟨r, b', hrb⟩ : ∃ r b', run_strategy (fun q => q) ⟨1000, none, none⟩
      (fun _ => [1, 1]) [100, 110] = .ok (r, b') := by
    rw [run_strategy, if_neg (by simp)]
    exact ⟨_, _, rfl⟩
  have h0 := (degenerate_first_period (fun q => q) ⟨1000, none, none⟩
    (fun _ => [1, 1]) [100, 110] (by simp) r b' hrb).1 rfl
  rw [hrb]
  simp only [Except.toOption, Option.map_some']
  rw [h0]

/-- C3 counterexample: prices `[1, 1, 5/2, 5/2]`, positions `[0, -1, -1, 0]`
(a short held through a 150% rise drives the compounding factor negative),
initial capital 1000: the cost-free final value is `-500`, while the run with
combined rate 1/100 ends at `-499.9825...` — introducing costs *increased*
the final portfolio value. -/
theorem cost_monotonicity_cex :
    (calculatePortfolioValues none 1000 [1, 1, 5/2, 5/2] [0, -1, -1, 0]).1.length = 4 ∧
    (calculatePortfolioValues (some ⟨1/100, 0⟩) 1000 [1, 1, 5/2, 5/2] [0, -1, -1, 0]).1.length = 4 ∧
    entry (calculatePortfolioValues none 1000 [1, 1, 5/2, 5/2] [0, -1, -1, 0]).1 3
      < entry (calculatePortfolioValues (some ⟨1/100, 0⟩) 1000 [1, 1, 5/2, 5/2] [0, -1, -1, 0]).1 3 := by
  refine ⟨?_, ?_, ?_⟩
  · simp [calculatePortfolioValues_fst, portfolioValues_length, adjustedReturns_length]
  · simp [calculatePortfolioValues_fst, portfolioValues_length, adjustedReturns_length]
  · norm_num [calculatePortfolioValues, portfolioValues, adjustedReturns, strategyReturns,
      shiftedPositions, pctChange, prodF, entry, List.range_succ, List.getD,
      TransactionCostModel.cost_series, TransactionCostModel.rate]

/-- C3 (amended): for every price series (non-negative, per the data model) and
fixed position series, a cost model never increases any portfolio value —
final value included — relative to the cost-free run, *provided* every
with-cost compounding factor `1 + period-return(t)` stays non-negative (the
portfolio is not driven below zero; the counterexample shows the claim fails
without this proviso). -/
theorem cost_monotonicity (m : TransactionCostModel) (K : ℚ)
    (prices positions : List ℚ) (hK : 0 < K) (hp : ∀ p ∈ prices, 0 ≤ p)
    (hfac : ∀ t, t < prices.length →
      0 ≤ 1 + entry (adjustedReturns (some m) K prices positions) t) :
    ∀ t, t < prices.length →
      entry (calculatePortfolioValues (some m) K prices positions).1 t
        ≤ entry (calculatePortfolioValues none K prices positions).1 t := by
  intro t ht
  rw [calculatePortfolioValues_fst, calculatePortfolioValues_fst]
  have hlS : t < (adjustedReturns (some m) K prices positions).length := by
    rw [adjustedReturns_length]; exact ht
  have hlN : t < (adjustedReturns none K prices positions).length := by
    rw [adjustedReturns_length]; exact ht
  rw [entry_portfolioValues _ _ hlS, entry_portfolioValues _ _ hlN]
  have hle : ∀ k, k < t + 1 →
      0 ≤ 1 + entry (adjustedReturns (some m) K prices positions) k ∧
      1 + entry (adjustedReturns (some m) K prices positions) k
        ≤ 1 + entry (adjustedReturns none K prices positions) k := by
    intro k hk
    have hkp : k < prices.length := lt_of_lt_of_le (Nat.lt_of_lt_of_le hk (Nat.succ_le_of_lt ht)) le_rfl
    refine ⟨hfac k hkp, ?_⟩
    have hcost : 0 ≤ entry (m.cost_series positions prices) k / K :=
      div_nonneg (cost_series_nonneg m positions prices hp k) hK.le
    show 1 + entry (adjustedReturns (some m) K prices positions) k
      ≤ 1 + entry (strategyReturns prices positions) k
    unfold adjustedReturns
    rw [entry_rangeMap _ hkp]
    linarith
  have := prodF_le_prodF
    (fun k => 1 + entry (adjustedReturns none K prices positions) k)
    (fun k => 1 + entry (adjustedReturns (some m) K prices positions) k)
    (t + 1) hle
  exact mul_le_mul_of_nonneg_left this.2 hK.le

/-- Witness for C3 (amended) at prices `[100, 110]`, positions `[1, 1]`,
rate 1/100: the with-cost value `1098.9` at the final period is at most the
cost-free `1100`. -/
theorem cost_monotonicity_witness :
    entry (calculatePortfolioValues (some ⟨1/100, 0⟩) 1000 [100, 110] [1, 1]).1 1
      ≤ entry (calculatePortfolioValues none 1000 [100, 110] [1, 1]).1 1 := by
  refine cost_monotonicity ⟨1/100, 0⟩ 1000 [100, 110] [1, 1] (by norm_num) ?_ ?_ 1 (by norm_num)
  · intro p hp
    fin_cases hp <;> norm_num
  · intro t ht
    simp only [List.length_cons, List.length_nil] at ht
    interval_cases t <;>
      norm_num [adjustedReturns, strategyReturns, shiftedPositions, pctChange, entry,
        List.getD, List.range_succ, TransactionCostModel.cost_series,
        TransactionCostModel.rate]

lemma entry_calculateBuyAndHold (K : ℚ) (prices : List ℚ) {t : ℕ}
    (h : t < prices.length) :
    entry (calculateBuyAndHold K prices) t = K * (entry prices t / entry prices 0) := by
  unfold calculateBuyAndHold
  rw [entry_eq_getElem _ (by simpa using h), List.getElem_map,
    ← entry_eq_getElem prices h]

/-- C4: With a constant position of 1.0 at every timestamp, no cost model and
positive prices, the portfolio value series coincides with the buy-and-hold
benchmark `initial_capital * price(t)/price(0)` at every timestamp (the
compounded one-period returns telescope). -/
theorem compounding_correctness (K : ℚ) (prices : List ℚ)
    (hp : ∀ p ∈ prices, 0 < p) :
    ∀ t, t < prices.length →
      entry (calculatePortfolioValues none K prices
          (List.replicate prices.length 1)).1 t
        = entry (calculateBuyAndHold K prices) t := by
  have key : ∀ t, t < prices.length →
      prodF (fun k => 1 + entry (strategyReturns prices
          (List.replicate prices.length 1)) k) (t + 1)
        = entry prices t / entry prices 0 := by
    intro t
    induction t with
    | zero =>
        intro h0
        rw [prodF_succ, prodF_zero,
          entry_strategyReturns_zero _ _ (List.ne_nil_of_length_pos h0)]
        have hne : entry prices 0 ≠ 0 := ne_of_gt (hp _ (entry_mem prices h0))
        field_simp
    | succ t ih =>
        intro h
        have ht : t < prices.length := Nat.lt_of_succ_lt h
        have h0 : 0 < prices.length := Nat.lt_of_le_of_lt (Nat.zero_le _) h
        rw [prodF_succ, ih ht,
          entry_strategyReturns_pos _ _ (Nat.succ_pos t) h]
        have hidx : t + 1 - 1 = t := Nat.succ_sub_one t
        rw [hidx, entry_replicate _ _ ht]
        have hpt : entry prices t ≠ 0 := ne_of_gt (hp _ (entry_mem prices ht))
        have hp0 : entry prices 0 ≠ 0 := ne_of_gt (hp _ (entry_mem prices h0))
        field_simp
        ring
  intro t ht
  rw [calculatePortfolioValues_fst]
  have hl : t < (adjustedReturns none K prices (List.replicate prices.length 1)).length := by
    rw [adjustedReturns_length]; exact ht
  rw [entry_portfolioValues _ _ hl]
  show K * prodF (fun k => 1 + entry (strategyReturns prices
      (List.replicate prices.length 1)) k) (t + 1)
    = entry (calculateBuyAndHold K prices) t
  rw [key t ht, entry_calculateBuyAndHold K prices ht]

/-- Witness for C4 at prices `[100, 110]`, capital 1000: both series give 1100
at the final timestamp. -/
theorem compounding_correctness_witness :
    entry (calculatePortfolioValues none 1000 [100, 110]
        (List.replicate ([100, 110] : List ℚ).length 1)).1 1
      = entry (calculateBuyAndHold 1000 [100, 110]) 1 := by
  refine compounding_correctness 1000 [100, 110] ?_ 1 (by norm_num)
  intro p hp
  fin_cases hp <;> norm_num

lemma take_ne_nil {v : List ℚ} {t : ℕ} (h : t < v.length) : v.take (t + 1) ≠ [] := by
  have : (v.take (t + 1)).length = min (t + 1) v.length := List.length_take _ _
  intro hnil
  rw [hnil] at this
  simp at this
  omega

lemma max?_eq_some_iff_rat (xs : List ℚ) (a : ℚ) :
    xs.max? = some a ↔ a ∈ xs ∧ ∀ b ∈ xs, b ≤ a :=
  List.max?_eq_some_iff (fun _ => le_refl _) (fun a b => max_choice a b)
    (fun _ _ _ => max_le_iff)

lemma min?_eq_some_iff_rat (xs : List ℚ) (a : ℚ) :
    xs.min? = some a ↔ a ∈ xs ∧ ∀ b ∈ xs, a ≤ b :=
  List.min?_eq_some_iff (fun _ => le_refl _) (fun a b => min_choice a b)
    (fun _ _ _ => le_min_iff)

lemma getElem_mem_take (l : List ℚ) {i : ℕ} (h : i < l.length) :
    l[i] ∈ l.take (i + 1) := by
  have h1 : i < (l.take (i + 1)).length := by simp [h]
  have h2 : (l.take (i + 1))[i] = l[i] := List.getElem_take l
  rw [← h2]
  exact List.getElem_mem h1

lemma runningMaxAt_spec (v : List ℚ) {t : ℕ} (h : t < v.length) :
    runningMaxAt v t ∈ v ∧ entry v t ≤ runningMaxAt v t ∧
      ∀ b ∈ v.take (t + 1), b ≤ runningMaxAt v t := by
  obtain ⟨M, hM⟩ : ∃ M, (v.take (t + 1)).max? = some M := by
    cases hmax : (v.take (t + 1)).max? with
    | none => exact absurd (List.max?_eq_none_iff.mp hmax) (take_ne_nil h)
    | some M => exact ⟨M, rfl⟩
  obtain ⟨hmem, hub⟩ := (max?_eq_some_iff_rat _ _).mp hM
  have hrm : runningMaxAt v t = M := by rw [runningMaxAt, hM]; rfl
  rw [hrm]
  refine ⟨List.mem_of_mem_take hmem, ?_, hub⟩
  rw [entry_eq_getElem v h]
  exact hub _ (getElem_mem_take v h)

lemma runningMaxAt_of_sorted (v : List ℚ) (hs : List.Pairwise (· ≤ ·) v)
    {t : ℕ} (h : t < v.length) :
    runningMaxAt v t = entry v t := by
  have hmax : (v.take (t + 1)).max? = some v[t] := by
    rw [max?_eq_some_iff_rat]
    refine ⟨getElem_mem_take v h, ?_⟩
    intro b hb
    obtain ⟨i, hi, hbi⟩ := List.mem_iff_getElem.mp hb
    have hil : i < v.length := by
      have := List.length_take (t + 1) v
      omega
    have hit : i ≤ t := by
      have := List.length_take (t + 1) v
      omega
    have hbv : b = v[i] := by
      rw [← hbi]
      exact (List.getElem_take v).symm ▸ rfl
    rcases Nat.lt_or_ge i t with hlt | hge
    · have := (List.pairwise_iff_getElem.mp hs) i t hil h hlt
      rw [hbv]; exact this
    · have hit' : i = t := le_antisymm hit hge
      subst hit'
      rw [hbv]
  rw [runningMaxAt, hmax, entry_eq_getElem v h]
  rfl

lemma drawdowns_entry_zero_of_sorted (v : List ℚ) (hs : List.Pairwise (· ≤ ·) v)
    {t : ℕ} (h : t < v.length) :
    (entry v t - runningMaxAt v t) / runningMaxAt v t = 0 := by
  rw [runningMaxAt_of_sorted v hs h]
  simp

lemma max_drawdown_of_sorted (v : List ℚ) (hne : v ≠ [])
    (hs : List.Pairwise (· ≤ ·) v) :
    calculate_max_drawdown v = 0 := by
  have h0 : 0 < v.length := List.length_pos.mpr hne
  have hmin : (drawdowns v).min? = some 0 := by
    rw [min?_eq_some_iff_rat]
    constructor
    · unfold drawdowns
      exact List.mem_map.mpr ⟨0, List.mem_range.mpr h0,
        drawdowns_entry_zero_of_sorted v hs h0⟩
    · intro b hb
      unfold drawdowns at hb
      obtain ⟨t, htr, hbt⟩ := List.mem_map.mp hb
      have ht := List.mem_range.mp htr
      rw [← hbt, drawdowns_entry_zero_of_sorted v hs ht]
  rw [calculate_max_drawdown, if_neg hne, hmin]
  rfl

lemma max_drawdown_nonpos (v : List ℚ) (hne : v ≠ []) (hp : ∀ x ∈ v, 0 < x) :
    calculate_max_drawdown v ≤ 0 := by
  have h0 : 0 < v.length := List.length_pos.mpr hne
  obtain ⟨a, ha⟩ : ∃ a, (drawdowns v).min? = some a := by
    cases hmin : (drawdowns v).min? with
    | none =>
        have : drawdowns v = [] := List.min?_eq_none_iff.mp hmin
        have : (drawdowns v).length = 0 := by rw [this]; rfl
        rw [show (drawdowns v).length = v.length by simp [drawdowns]] at this
        omega
    | some a => exact ⟨a, rfl⟩
  have hmem := ((min?_eq_some_iff_rat _ _).mp ha).1
  unfold drawdowns at hmem
  obtain ⟨t, htr, hta⟩ := List.mem_map.mp hmem
  have ht := List.mem_range.mp htr
  obtain ⟨hMv, hle, _⟩ := runningMaxAt_spec v ht
  have hMpos : 0 < runningMaxAt v t := hp _ hMv
  have hanp : a ≤ 0 := by
    rw [← hta]
    apply div_nonpos_of_nonpos_of_nonneg
    · linarith
    · exact hMpos.le
  rw [calculate_max_drawdown, if_neg hne, ha]
  exact hanp

/-- C7: Metric degeneracy sentinels — `sharpe_ratio` returns exactly 0.0 on an
empty return series or one whose sample standard deviation is zero; `win_rate`
and `volatility` return exactly 0.0 on an empty return series; `max_drawdown`
returns exactly 0.0 on a monotonically increasing positive value series, and
is never positive on a non-empty positive value series. -/
theorem metric_degeneracy :
    (∀ (sqrtQ : ℚ → ℚ) (rf : ℚ) (py : ℕ) (rs : List ℚ),
      rs = [] ∨ sampleStd? sqrtQ rs = some 0 →
      calculate_sharpe_ratio sqrtQ rs rf py = some 0) ∧
    calculate_win_rate [] = 0 ∧
    (∀ (sqrtQ : ℚ → ℚ) (py : ℕ), calculate_volatility sqrtQ [] py = some 0) ∧
    (∀ v : List ℚ, v ≠ [] → (∀ x ∈ v, 0 < x) → List.Pairwise (· ≤ ·) v →
      calculate_max_drawdown v = 0) ∧
    (∀ v : List ℚ, v ≠ [] → (∀ x ∈ v, 0 < x) → calculate_max_drawdown v ≤ 0) := by
  refine ⟨?_, rfl, ?_, ?_, ?_⟩
  · intro sqrtQ rf py rs h
    rw [calculate_sharpe_ratio, if_pos h]
  · intro sqrtQ py
    rw [calculate_volatility, if_pos rfl]
  · intro v hne _ hs
    exact max_drawdown_of_sorted v hne hs
  · intro v hne hp
    exact max_drawdown_nonpos v hne hp

/-- Witness for C7: a constant return series has zero std so Sharpe is 0;
`max_drawdown [1, 2, 3] = 0`; `max_drawdown [3, 1, 2] ≤ 0`. -/
theorem metric_degeneracy_witness :
    calculate_sharpe_ratio (fun q => q) [1/10, 1/10] 0 365 = some 0 ∧
    calculate_max_drawdown [1, 2, 3] = 0 ∧
    calculate_max_drawdown [3, 1, 2] ≤ 0 := by
  refine ⟨metric_degeneracy.1 (fun q => q) 0 365 [1/10, 1/10] (Or.inr ?_),
    metric_degeneracy.2.2.2.1 [1, 2, 3] (by simp) ?_ ?_,
    metric_degeneracy.2.2.2.2 [3, 1, 2] (by simp) ?_⟩
  · norm_num [sampleStd?]
  · intro x hx
    fin_cases hx <;> norm_num
  · norm_num [List.pairwise_cons]
  · intro x hx
    fin_cases hx <;> norm_num

/-- Witness for C10 at the singleton return series `[1/10]`: both metrics
produce the undefined (NaN) value, not the 0.0 sentinel. -/
theorem single_sample_escapes_guard_witness :
    calculate_sharpe_ratio (fun q => q) [1/10] 0 365 = none ∧
    calculate_volatility (fun q => q) [1/10] 365 = none :=
  ⟨(single_sample_escapes_guard (fun q => q) 0 365 (1/10)).2.1,
   (single_sample_escapes_guard (fun q => q) 0 365 (1/10)).2.2⟩
